import Mathlib

/-!
Shallow embedding of the TabTracker browser extension's session-state
persistence subsystem (source: src/background.ts, with the same logic in
src/unnamed/part_000), together with proofs of the spec's testable
properties about it.

The embedding models:
* the YouTube URL canonicalization (`isYouTubeWatchUrl`,
  `extractYouTubeQueueFromUrl`) including a model of the browser's URL
  query-string parsing (`getParam`);
* the persisted key-value maps (`getKey` / `setKey` / `delKey` over
  association lists, mirroring JavaScript object semantics);
* the event handlers: tab-created relationship recording, tab-removed
  relationship cleanup and queue migration, tab-updated queue capture,
  the `getTabs` and `restoreYouTubeQueue` message handlers, and the
  tab-activated history recorder;
* the window deactivation (snapshot capture) operation, modelled from the
  spec because the handler itself is not part of the available sources.

Host-API effects (script injection results, `chrome.runtime.lastError`,
timestamps) are passed to the handlers as explicit parameters.
-/

namespace TabTracker

/-! ## String primitives modelling the JavaScript string API -/

/-- Does `pat` match at the head of `s`? (helper for substring search). -/
def headMatches : List Char → List Char → Bool
  | [], _ => true
  | _ :: _, [] => false
  | p :: ps, c :: cs => p = c && headMatches ps cs

/-- Does `pat` occur as a contiguous sublist of `s`? Models
`String.prototype.includes`. -/
def hasSubList (pat : List Char) : List Char → Bool
  | [] => pat.isEmpty
  | c :: cs => headMatches pat (c :: cs) || hasSubList pat cs

/-- Models JavaScript `s.includes(pat)`. -/
def strIncludes (s pat : String) : Bool :=
  hasSubList pat.data s.data

/-- Models JavaScript `s.startsWith(pre)`. -/
def strStartsWith (s pre : String) : Bool :=
  headMatches pre.data s.data

/-! ## URL query-string parsing (model of the WHATWG URL / URLSearchParams
behaviour used by the source through `new URL(url).searchParams.get(..)`). -/

/-- Numeric value of a hexadecimal digit. -/
def hexVal (c : Char) : Option Nat :=
  if c.isDigit then some (c.toNat - '0'.toNat)
  else if 'a' ≤ c ∧ c ≤ 'f' then some (c.toNat - 'a'.toNat + 10)
  else if 'A' ≤ c ∧ c ≤ 'F' then some (c.toNat - 'A'.toNat + 10)
  else none

/-- Percent-decoding of an `application/x-www-form-urlencoded` component:
`+` becomes a space, `%HH` becomes the character with code `HH`, and
malformed escapes are kept verbatim. (Multi-byte UTF-8 percent sequences are
modelled per byte, which does not affect any keying property proved below.) -/
def percentDecode : List Char → List Char
  | [] => []
  | '+' :: rest => ' ' :: percentDecode rest
  | '%' :: a :: b :: rest =>
    (match hexVal a, hexVal b with
     | some ha, some hb => Char.ofNat (16 * ha + hb) :: percentDecode rest
     | _, _ => '%' :: percentDecode (a :: b :: rest))
  | '%' :: rest => '%' :: percentDecode rest
  | c :: rest => c :: percentDecode rest

/-- Split a character list at the first occurrence of `c`; `none` when `c`
does not occur. -/
def splitAtFirst (c : Char) : List Char → Option (List Char × List Char)
  | [] => none
  | x :: xs =>
    if x = c then some ([], xs)
    else
      match splitAtFirst c xs with
      | some (l, r) => some (x :: l, r)
      | none => none

/-- Split a character list on every occurrence of `c` (like
`String.prototype.split` on a single-character separator). -/
def splitOnChar (c : Char) : List Char → List (List Char)
  | [] => [[]]
  | x :: xs =>
    if x = c then [] :: splitOnChar c xs
    else
      match splitOnChar c xs with
      | [] => [[x]]
      | seg :: rest => (x :: seg) :: rest

/-- The raw query string of a URL: the part after the first `?` that
precedes the fragment delimiter `#` (empty when there is no query). -/
def queryStringOf (url : String) : List Char :=
  match splitAtFirst '?' (url.data.takeWhile (fun c => c ≠ '#')) with
  | some (_, q) => q
  | none => []

/-- The decoded `name = value` pairs of a URL's query string, in order,
as produced by `URLSearchParams`: segments split on `&`, empty segments
skipped, a segment without `=` yielding an empty value. -/
def paramsOf (url : String) : List (String × String) :=
  (splitOnChar '&' (queryStringOf url)).filterMap fun seg =>
    if seg.isEmpty then none
    else
      match splitAtFirst '=' seg with
      | some (n, v) => some (⟨percentDecode n⟩, ⟨percentDecode v⟩)
      | none => some (⟨percentDecode seg⟩, "")

/-- Models `new URL(url).searchParams.get(name)`: the value of the first
query parameter named `name`, or `none`. -/
def getParam (url : String) (name : String) : Option String :=
  ((paramsOf url).find? (fun p => p.1 = name)).map (fun p => p.2)

/-- Does a character belong to a URL scheme (after the leading letter)? -/
def isSchemeChar (c : Char) : Bool :=
  c.isAlphanum || c = '+' || c = '-' || c = '.'

/-- Scheme-terminating colon scan for `jsUrlParses`. -/
def hasSchemeColon : List Char → Bool
  | [] => false
  | c :: rest => if c = ':' then true else isSchemeChar c && hasSchemeColon rest

/-- Modelled success of `new URL(url)`: the URL starts with a scheme
(a letter followed by scheme characters and a colon). Host validation is
not modelled; the source only relies on parse failure for scheme-less
strings, which this captures. -/
def jsUrlParses (url : String) : Bool :=
  match url.data with
  | [] => false
  | c :: rest => c.isAlpha && hasSchemeColon rest

/-! ## Persisted key-value maps

JavaScript objects used as dictionaries (`tabRelationships`,
`youtubeQueues`) are modelled as association lists with unique keys:
`obj[k]` is `getKey`, `obj[k] = v` is `setKey` (in-place overwrite),
`delete obj[k]` is `delKey`. -/

/-- Lookup in a JavaScript-object-style map. -/
def getKey {κ α : Type} [DecidableEq κ] (m : List (κ × α)) (k : κ) : Option α :=
  match m with
  | [] => none
  | (k₀, v₀) :: rest => if k₀ = k then some v₀ else getKey rest k

/-- Assignment in a JavaScript-object-style map: overwrites the entry in
place when the key is present, appends it otherwise. -/
def setKey {κ α : Type} [DecidableEq κ] (m : List (κ × α)) (k : κ) (v : α) :
    List (κ × α) :=
  match m with
  | [] => [(k, v)]
  | (k₀, v₀) :: rest => if k₀ = k then (k, v) :: rest else (k₀, v₀) :: setKey rest k v

/-- Deletion from a JavaScript-object-style map. -/
def delKey {κ α : Type} [DecidableEq κ] (m : List (κ × α)) (k : κ) :
    List (κ × α) :=
  match m with
  | [] => []
  | (k₀, v₀) :: rest => if k₀ = k then delKey rest k else (k₀, v₀) :: delKey rest k

/-! ## Data model (src/background.ts) -/

/-- One element of a scraped YouTube queue
(interface `YouTubeVideo` in the source). -/
structure YouTubeVideo where
  videoId : String
  title : String
  url : String
deriving DecidableEq, Repr

/-- Result of `extractYouTubeQueueFromUrl`
(interface `YouTubeQueueInfo`, src/background.ts:188). -/
structure YouTubeQueueInfo where
  mainVideoId : String
  playlistId : String
  currentIndex : Option String
  baseUrl : String
deriving DecidableEq, Repr

/-- Session-keyed queue record (interface `YouTubeQueueData`,
src/background.ts:228). -/
structure YouTubeQueueData where
  tabId : Nat
  url : String
  baseUrl : String
  mainVideoId : String
  playlistId : String
  videos : List YouTubeVideo
deriving DecidableEq, Repr

/-- Value stored in the persisted `youtubeQueues` map: a session-keyed
entry holds a full `YouTubeQueueData`; a canonical-keyed entry holds
`{videos, timestamp}` (src/background.ts:145 and :340). -/
inductive QueueEntry where
  | session (qd : YouTubeQueueData)
  | canonical (videos : List YouTubeVideo) (timestamp : Nat)
deriving DecidableEq, Repr

/-- The `.videos` field read on either kind of queue entry. -/
def QueueEntry.videos : QueueEntry → List YouTubeVideo
  | .session qd => qd.videos
  | .canonical vs _ => vs

/-- The `.baseUrl` field, which only session-keyed entries carry
(`undefined` on canonical entries is modelled as `none`). -/
def QueueEntry.baseUrlField : QueueEntry → Option String
  | .session qd => some qd.baseUrl
  | .canonical _ _ => none

/-- The persisted `youtubeQueues` map. -/
abbrev QueueMap := List (String × QueueEntry)

/-- Value of the persisted `tabRelationships` map
(src/background.ts:107). -/
structure RelRecord where
  parentTabId : Nat
  createdAt : Nat
deriving DecidableEq, Repr

/-- The persisted `tabRelationships` map. -/
abbrev RelMap := List (Nat × RelRecord)

/-- The session key `tab-<tabId>` under which a live tab's queue is
stored (src/background.ts:140, :337, :382). -/
def sessionKey (tabId : Nat) : String :=
  "tab-" ++ toString tabId

/-! ## URL canonicalization (src/background.ts:158-226) -/

/-- Embedding of `isYouTubeWatchUrl` (src/background.ts:159): the URL is
truthy and contains `youtube.com/watch` or `youtu.be/`. -/
def isYouTubeWatchUrl (url : String) : Bool :=
  !url.isEmpty &&
    (strIncludes url "youtube.com/watch" || strIncludes url "youtu.be/")

/-- The canonical base URL built by `extractYouTubeQueueFromUrl`
(src/background.ts:214). -/
def youtubeBaseUrl (v l : String) : String :=
  "https://www.youtube.com/watch?v=" ++ v ++ "&list=" ++ l

/-- Embedding of `extractYouTubeQueueFromUrl` (src/background.ts:196):
`none` when the URL is not a watch URL, fails to parse (the `catch`
branch), or lacks a truthy `v` or `list` parameter; otherwise the queue
info with the canonical base URL, which drops the `index` parameter. -/
def extractYouTubeQueueFromUrl (url : String) : Option YouTubeQueueInfo :=
  if isYouTubeWatchUrl url then
    if jsUrlParses url then
      match getParam url "v" with
      | none => none
      | some v =>
        if v.isEmpty then none
        else
          let index := getParam url "index"
          match getParam url "list" with
          | none => none
          | some l =>
            if l.isEmpty then none
            else some ⟨v, l, index, youtubeBaseUrl v l⟩
    else none
  else none

/-- Pure gating of `extractYouTubeQueueInfo` (src/background.ts:238):
the DOM scraping performed by script injection is a host capability and
its outcome is passed in as `scriptResult` (`none` models any injection
failure, which the source catches and logs). -/
def extractYouTubeQueueInfo (url : Option String) (tabId : Nat)
    (scriptResult : Option (List YouTubeVideo)) : Option YouTubeQueueData :=
  match url with
  | none => none
  | some u =>
    if isYouTubeWatchUrl u then
      match extractYouTubeQueueFromUrl u with
      | none => none
      | some qi =>
        match scriptResult with
        | none => none
        | some videos => some ⟨tabId, u, qi.baseUrl, qi.mainVideoId, qi.playlistId, videos⟩
    else none

/-! ## Event handlers (src/background.ts) -/

/-- JavaScript truthiness of `tab.openerTabId` (an optional number):
defined and non-zero. -/
def hasOpener (openerTabId : Option Nat) : Bool :=
  match openerTabId with
  | some p => p ≠ 0
  | none => false

/-- Embedding of the relationship-recording part of the
`chrome.tabs.onCreated` listener (src/background.ts:96-118): when the new
tab has a truthy `openerTabId`, the child's entry is overwritten with
`{parentTabId: opener, createdAt: now}`; otherwise nothing is stored. -/
def recordChildOnCreated (m : RelMap) (tabId : Nat) (openerTabId : Option Nat)
    (now : Nat) : RelMap :=
  match openerTabId with
  | some p => if p ≠ 0 then setKey m tabId ⟨p, now⟩ else m
  | none => m

/-- Embedding of the relationship-cleanup part of the
`chrome.tabs.onRemoved` listener (src/background.ts:125-133). The boolean
records whether a `chrome.storage.local.set` write was issued. -/
def cleanupRelationship (m : RelMap) (tabId : Nat) : RelMap × Bool :=
  match getKey m tabId with
  | some _ => (delKey m tabId, true)
  | none => (m, false)

/-- Embedding of the queue-migration part of the `chrome.tabs.onRemoved`
listener (src/background.ts:136-155): when a session-keyed record exists,
its items are re-stored under the record's truthy `baseUrl` with a fresh
timestamp and the session key is deleted. -/
def migrateQueueOnRemoved (m : QueueMap) (tabId : Nat) (now : Nat) : QueueMap :=
  match getKey m (sessionKey tabId) with
  | none => m
  | some entry =>
    let m' :=
      match entry.baseUrlField with
      | some b => if b.isEmpty then m else setKey m b (.canonical entry.videos now)
      | none => m
    delKey m' (sessionKey tabId)

/-- Embedding of the queue-capture part of the `chrome.tabs.onUpdated`
listener (src/background.ts:323-354): `queueData` is the (already
awaited) result of `extractYouTubeQueueInfo`; the cache is written only
when it is present with a non-empty video list, storing the session-keyed
copy and the canonical-keyed copy. A `none` result covers both extraction
failure (caught and logged by the source) and non-queue pages. -/
def onUpdatedQueueHandler (m : QueueMap) (tabId : Nat)
    (queueData : Option YouTubeQueueData) (now : Nat) : QueueMap :=
  match queueData with
  | none => m
  | some qd =>
    if qd.videos.length > 0 then
      setKey (setKey m (sessionKey tabId) (.session qd)) qd.baseUrl
        (.canonical qd.videos now)
    else m

/-- A tab as annotated by the `getTabs` handler: the optional queue and
the `hasRestoredQueue` flag (absent modelled as `false`). -/
structure TabView where
  id : Nat
  url : Option String
  youtubeQueue : Option (List YouTubeVideo)
  hasRestoredQueue : Bool
deriving DecidableEq, Repr

/-- Embedding of the per-tab annotation loop of the `getTabs` message
handler (src/background.ts:378-397): for a truthy YouTube watch URL, the
session-keyed entry is attached when present; otherwise the
canonical-keyed entry for the URL's canonical base URL is attached with
`hasRestoredQueue = true`. -/
def annotateTab (queues : QueueMap) (id : Nat) (url : Option String) : TabView :=
  match url with
  | none => ⟨id, none, none, false⟩
  | some u =>
    if isYouTubeWatchUrl u then
      match getKey queues (sessionKey id) with
      | some entry => ⟨id, some u, some entry.videos, false⟩
      | none =>
        match extractYouTubeQueueFromUrl u with
        | some qi =>
          if qi.baseUrl.isEmpty then ⟨id, some u, none, false⟩
          else
            match getKey queues qi.baseUrl with
            | some entry => ⟨id, some u, some entry.videos, true⟩
            | none => ⟨id, some u, none, false⟩
        | none => ⟨id, some u, none, false⟩
    else ⟨id, some u, none, false⟩

/-- Response of the `restoreYouTubeQueue` message handler
(interface `RestoreQueueResponse`, src/background.ts:361). -/
structure RestoreQueueResponse where
  success : Bool
  error : Option String
deriving DecidableEq, Repr

/-- JavaScript truthiness of an optional number. -/
def jsTruthyNat (n : Option Nat) : Bool :=
  match n with
  | some v => v ≠ 0
  | none => false

/-- JavaScript truthiness of an optional string. -/
def jsTruthyStr (s : Option String) : Bool :=
  match s with
  | some v => !v.isEmpty
  | none => false

/-- Embedding of the `restoreYouTubeQueue` message handler
(src/background.ts:417-443). `updateOutcome` is the host outcome of
`chrome.tabs.update`: `some msg` models `chrome.runtime.lastError` being
set (or the `catch` branch's error message), `none` models success. -/
def restoreYouTubeQueueHandler (tabId : Option Nat) (url : Option String)
    (updateOutcome : Option String) : RestoreQueueResponse :=
  if jsTruthyNat tabId && jsTruthyStr url then
    match updateOutcome with
    | some e => ⟨false, some e⟩
    | none => ⟨true, none⟩
  else ⟨false, some "Invalid parameters"⟩

/-- One entry of the persisted `tabHistory` list (src/background.ts:465). -/
structure TabHistoryEntry where
  id : Nat
  windowId : Nat
  url : String
  title : String
  timestamp : Nat
deriving DecidableEq, Repr

/-- The tab handed to the `chrome.tabs.get` callback of the
`onActivated` listener. -/
structure ActivatedTab where
  id : Nat
  windowId : Nat
  url : Option String
  title : String
deriving DecidableEq, Repr

/-- Embedding of the `chrome.tabs.onActivated` history recorder
(src/background.ts:450-488): skipped when `chrome.runtime.lastError` is
set, the tab is absent, or its URL does not start with `http`; otherwise
the new entry is unshifted onto the history, which is truncated to 100
entries when it exceeds 100. -/
def onActivatedHistory (hist : List TabHistoryEntry) (lastError : Bool)
    (tab : Option ActivatedTab) (now : Nat) : List TabHistoryEntry :=
  if lastError then hist
  else
    match tab with
    | none => hist
    | some t =>
      match t.url with
      | none => hist
      | some u =>
        if strStartsWith u "http" then
          let h := ⟨t.id, t.windowId, u, t.title, now⟩ :: hist
          if h.length > 100 then h.take 100 else h
        else hist

/-! ## Snapshot capture (spec §4.3), modelled from the spec -/

/-- A frozen tab inside a window snapshot (spec §3 `TabSnapshot`,
restricted to the fields the capture-ordering property mentions). -/
structure TabSnapshot where
  url : String
  title : String
  originalId : Nat
  parentTabId : Option Nat
deriving DecidableEq, Repr

/-- A deactivated-window record (spec §3 `WindowSnapshot`). -/
structure WindowSnapshot where
  deactivatedAt : Nat
  name : String
  tabs : List TabSnapshot
deriving DecidableEq, Repr

/-- An externally visible effect of the snapshot-capture operation, in
the order it is issued: a durable write of the whole snapshot store, or
the destruction of a live window. -/
inductive CaptureAction where
  | persistStore (store : List WindowSnapshot)
  | destroyWindow (windowId : Nat)
deriving DecidableEq, Repr

/-- Modelled from the spec: the `deactivateWindow` handler (Snapshot
Capture, spec §4.3) is not among the available sources — only its caller
in src/tab-manager.js is — so its algorithm is taken from the spec's
words: enumerate the window's live tabs and fail with no side effect when
there are none; otherwise embed each tab's `originalId` and its parent
looked up in the Relationship Store, assemble a `WindowSnapshot` with a
fresh timestamp and a default name, prepend it to the store, persist, and
only after the acknowledged persist destroy the live window. The returned
list is the ordered trace of externally visible effects. -/
def captureSnapshot (liveTabs : List (Nat × String × String))
    (parents : RelMap) (now : Nat) : WindowSnapshot :=
  ⟨now, "Deactivated window",
    liveTabs.map fun t =>
      TabSnapshot.mk t.2.1 t.2.2 t.1
        ((getKey parents t.1).map (fun r => r.parentTabId))⟩

/-- Modelled from the spec: the effect sequence of `deactivateWindow`;
see `captureSnapshot` and the comment above. -/
def deactivateWindow (store : List WindowSnapshot) (windowId : Nat)
    (liveTabs : List (Nat × String × String)) (parents : RelMap) (now : Nat) :
    Bool × List WindowSnapshot × List CaptureAction :=
  if liveTabs.isEmpty then (false, store, [])
  else
    (true, captureSnapshot liveTabs parents now :: store,
     [.persistStore (captureSnapshot liveTabs parents now :: store),
      .destroyWindow windowId])

/-! ## Map lemmas -/

theorem getKey_setKey_self {κ α : Type} [DecidableEq κ] (m : List (κ × α))
    (k : κ) (v : α) : getKey (setKey m k v) k = some v := by
  induction m with
  | nil => simp [getKey, setKey]
  | cons hd tl ih =>
    obtain ⟨k₀, v₀⟩ := hd
    by_cases hk : k₀ = k
    · simp [getKey, setKey, hk]
    · simp [getKey, setKey, hk, ih]

theorem getKey_setKey_ne {κ α : Type} [DecidableEq κ] (m : List (κ × α))
    (k k' : κ) (v : α) (h : k ≠ k') :
    getKey (setKey m k v) k' = getKey m k' := by
  induction m with
  | nil => simp [getKey, setKey, h]
  | cons hd tl ih =>
    obtain ⟨k₀, v₀⟩ := hd
    by_cases hk : k₀ = k
    · subst hk
      simp [getKey, setKey, h]
    · by_cases hk' : k₀ = k'
      · subst hk'
        simp [getKey, setKey, Ne.symm h]
      · simp [getKey, setKey, hk, hk', ih]

theorem getKey_delKey_self {κ α : Type} [DecidableEq κ] (m : List (κ × α))
    (k : κ) : getKey (delKey m k) k = none := by
  induction m with
  | nil => simp [getKey, delKey]
  | cons hd tl ih =>
    obtain ⟨k₀, v₀⟩ := hd
    by_cases hk : k₀ = k
    · simp [delKey, hk, ih]
    · simp [getKey, delKey, hk, ih]

theorem getKey_delKey_ne {κ α : Type} [DecidableEq κ] (m : List (κ × α))
    (k k' : κ) (h : k ≠ k') :
    getKey (delKey m k) k' = getKey m k' := by
  induction m with
  | nil => simp [delKey]
  | cons hd tl ih =>
    obtain ⟨k₀, v₀⟩ := hd
    by_cases hk : k₀ = k
    · subst hk
      simp [getKey, delKey, h, Ne.symm h, ih]
    · simp [getKey, delKey, hk, ih]

theorem mem_keys_setKey {κ α : Type} [DecidableEq κ] (m : List (κ × α))
    (k a : κ) (v : α) :
    a ∈ (setKey m k v).map Prod.fst ↔ a ∈ m.map Prod.fst ∨ a = k := by
  induction m with
  | nil => simp [setKey]
  | cons hd tl ih =>
    obtain ⟨k₀, v₀⟩ := hd
    by_cases hk : k₀ = k
    · subst hk
      simp [setKey]
      tauto
    · simp [setKey, hk, ih]
      tauto

theorem nodup_keys_setKey {κ α : Type} [DecidableEq κ] (m : List (κ × α))
    (k : κ) (v : α) (h : (m.map Prod.fst).Nodup) :
    ((setKey m k v).map Prod.fst).Nodup := by
  induction m with
  | nil => simp [setKey]
  | cons hd tl ih =>
    obtain ⟨k₀, v₀⟩ := hd
    simp only [List.map_cons, List.nodup_cons] at h
    by_cases hk : k₀ = k
    · subst hk
      simpa [setKey, List.nodup_cons] using h
    · rw [show setKey ((k₀, v₀) :: tl) k v = (k₀, v₀) :: setKey tl k v from by
        simp [setKey, hk]]
      rw [List.map_cons, List.nodup_cons]
      refine ⟨?_, ih h.2⟩
      intro hmem
      rcases (mem_keys_setKey tl k k₀ v).1 hmem with h1 | h1
      · exact h.1 h1
      · exact hk h1

/-! ## First-character lemmas for the canonical and session keys -/

theorem youtubeBaseUrl_head (v l : String) :
    (youtubeBaseUrl v l).data.head? = some 'h' := by
  have hlit : "https://www.youtube.com/watch?v=".data
      = 'h' :: "ttps://www.youtube.com/watch?v=".data := by decide
  simp [youtubeBaseUrl, String.data_append, hlit]

theorem sessionKey_head (t : Nat) :
    (sessionKey t).data.head? = some 't' := by
  have hlit : "tab-".data = 't' :: "ab-".data := by decide
  simp [sessionKey, String.data_append, hlit]

theorem youtubeBaseUrl_ne_sessionKey (v l : String) (t : Nat) :
    youtubeBaseUrl v l ≠ sessionKey t := by
  intro h
  have h2 := congrArg (fun s => s.data.head?) h
  simp only [youtubeBaseUrl_head, sessionKey_head] at h2
  exact absurd h2 (by decide)

theorem youtubeBaseUrl_isEmpty (v l : String) :
    (youtubeBaseUrl v l).isEmpty = false := by
  rw [Bool.eq_false_iff]
  intro hI
  have he : youtubeBaseUrl v l = "" := by rwa [String.isEmpty_iff] at hI
  have h := youtubeBaseUrl_head v l
  rw [he] at h
  exact absurd h (by decide)

/-! ## Characterization of the canonicalizer -/

theorem extract_eq_some_iff (url : String) (qi : YouTubeQueueInfo) :
    extractYouTubeQueueFromUrl url = some qi ↔
      isYouTubeWatchUrl url = true ∧ jsUrlParses url = true ∧
      getParam url "v" = some qi.mainVideoId ∧ qi.mainVideoId.isEmpty = false ∧
      getParam url "list" = some qi.playlistId ∧ qi.playlistId.isEmpty = false ∧
      qi.currentIndex = getParam url "index" ∧
      qi.baseUrl = youtubeBaseUrl qi.mainVideoId qi.playlistId := by
  constructor
  · intro h
    unfold extractYouTubeQueueFromUrl at h
    split at h
    · split at h
      · split at h
        · exact absurd h (by simp)
        · split at h
          · exact absurd h (by simp)
          · split at h
            · exact absurd h (by simp)
            · split at h
              · exact absurd h (by simp)
              · obtain rfl := Option.some.injEq _ _ |>.mp h |>.symm
                simp_all
      · exact absurd h (by simp)
    · exact absurd h (by simp)
  · rintro ⟨h1, h2, h3, h4, h5, h6, h7, h8⟩
    obtain ⟨mv, pl, ci, bu⟩ := qi
    simp only at h3 h4 h5 h6 h7 h8
    unfold extractYouTubeQueueFromUrl
    rw [h1, if_pos rfl, h2, if_pos rfl, h3]
    simp [h4, h5, h6, h7, h8]

theorem extract_baseUrl_shape (url : String) (qi : YouTubeQueueInfo)
    (h : extractYouTubeQueueFromUrl url = some qi) :
    qi.baseUrl = youtubeBaseUrl qi.mainVideoId qi.playlistId :=
  ((extract_eq_some_iff url qi).1 h).2.2.2.2.2.2.2

theorem extract_baseUrl_isEmpty (url : String) (qi : YouTubeQueueInfo)
    (h : extractYouTubeQueueFromUrl url = some qi) :
    qi.baseUrl.isEmpty = false := by
  rw [extract_baseUrl_shape url qi h]
  exact youtubeBaseUrl_isEmpty _ _

theorem extract_isWatch (url : String) (qi : YouTubeQueueInfo)
    (h : extractYouTubeQueueFromUrl url = some qi) :
    isYouTubeWatchUrl url = true :=
  ((extract_eq_some_iff url qi).1 h).1

/-! ## Claim theorems -/

/-- C1: Canonical key stability. For every pair of YouTube watch URLs on
which canonicalization succeeds and that carry the same `v` parameter and
the same `list` parameter (in particular, URLs differing only in the
positional `index` parameter), `extractYouTubeQueueFromUrl` returns the
same canonical base URL, so a later visit to the same collection at a
different position resolves to the same canonical cache key. -/
theorem claim_C1_canonical_key_stability (u₁ u₂ : String)
    (q₁ q₂ : YouTubeQueueInfo)
    (h₁ : extractYouTubeQueueFromUrl u₁ = some q₁)
    (h₂ : extractYouTubeQueueFromUrl u₂ = some q₂)
    (hv : getParam u₁ "v" = getParam u₂ "v")
    (hl : getParam u₁ "list" = getParam u₂ "list") :
    q₁.baseUrl = q₂.baseUrl := by
  have s₁ := (extract_eq_some_iff u₁ q₁).1 h₁
  have s₂ := (extract_eq_some_iff u₂ q₂).1 h₂
  have hvv : q₁.mainVideoId = q₂.mainVideoId := by
    have := s₁.2.2.1.symm.trans (hv.trans s₂.2.2.1)
    simpa using this
  have hll : q₁.playlistId = q₂.playlistId := by
    have := s₁.2.2.2.2.1.symm.trans (hl.trans s₂.2.2.2.2.1)
    simpa using this
  rw [s₁.2.2.2.2.2.2.2, s₂.2.2.2.2.2.2.2, hvv, hll]

/-- Witness for C1 on the spec's Scenario D pair of URLs, which differ
only in the `index` parameter. -/
theorem claim_C1_witness :
    (YouTubeQueueInfo.mk "X" "Y" (some "3") (youtubeBaseUrl "X" "Y")).baseUrl
      = (YouTubeQueueInfo.mk "X" "Y" (some "9") (youtubeBaseUrl "X" "Y")).baseUrl :=
  claim_C1_canonical_key_stability
    "https://www.youtube.com/watch?v=X&list=Y&index=3"
    "https://www.youtube.com/watch?v=X&list=Y&index=9"
    (YouTubeQueueInfo.mk "X" "Y" (some "3") (youtubeBaseUrl "X" "Y"))
    (YouTubeQueueInfo.mk "X" "Y" (some "9") (youtubeBaseUrl "X" "Y"))
    (by decide) (by decide) (by decide) (by decide)

/-- C8: Queue-bearing disqualification. `extractYouTubeQueueFromUrl`
returns a queue info exactly when the URL is a (truthy) YouTube watch URL
that parses and carries a truthy `v` parameter and a truthy `list`
parameter; in every other case it returns `none`, and
`extractYouTubeQueueInfo` then skips extraction, returning `none` as
well. -/
theorem claim_C8_queue_bearing_disqualification (url : String) :
    ((∃ qi, extractYouTubeQueueFromUrl url = some qi) ↔
      (isYouTubeWatchUrl url = true ∧ jsUrlParses url = true ∧
       (∃ v, getParam url "v" = some v ∧ v.isEmpty = false) ∧
       (∃ l, getParam url "list" = some l ∧ l.isEmpty = false))) ∧
    (∀ tabId scriptResult, extractYouTubeQueueFromUrl url = none →
       extractYouTubeQueueInfo (some url) tabId scriptResult = none) := by
  constructor
  · constructor
    · rintro ⟨qi, hqi⟩
      have s := (extract_eq_some_iff url qi).1 hqi
      exact ⟨s.1, s.2.1, ⟨qi.mainVideoId, s.2.2.1, s.2.2.2.1⟩,
        ⟨qi.playlistId, s.2.2.2.2.1, s.2.2.2.2.2.1⟩⟩
    · rintro ⟨hw, hp, ⟨v, hv, hve⟩, ⟨l, hl, hle⟩⟩
      exact ⟨⟨v, l, getParam url "index", youtubeBaseUrl v l⟩,
        (extract_eq_some_iff url _).2 ⟨hw, hp, hv, hve, hl, hle, rfl, rfl⟩⟩
  · intro tabId scriptResult hnone
    unfold extractYouTubeQueueInfo
    cases hw : isYouTubeWatchUrl url <;> simp [hnone]

/-- Witness for C8: a parseable watch URL lacking the `list` parameter is
disqualified and extraction is skipped. -/
theorem claim_C8_witness :
    extractYouTubeQueueInfo (some "https://www.youtube.com/watch?v=X") 7
      (some []) = none :=
  (claim_C8_queue_bearing_disqualification
    "https://www.youtube.com/watch?v=X").2 7 (some []) (by decide)

/-- C2: Queue lookup precedence and restored flag in the `getTabs`
response. For a tab with a YouTube watch URL: a session-keyed record is
attached without the restored flag when present; otherwise a
canonical-keyed record for the canonical URL of the tab's current URL is
attached with `hasRestoredQueue = true`; and the flag is `true` only when
the session-keyed record is absent. -/
theorem claim_C2_lookup_precedence (queues : QueueMap) (id : Nat) (u : String)
    (hw : isYouTubeWatchUrl u = true) :
    (∀ e, getKey queues (sessionKey id) = some e →
        annotateTab queues id (some u) = ⟨id, some u, some e.videos, false⟩) ∧
    (∀ qi e, getKey queues (sessionKey id) = none →
        extractYouTubeQueueFromUrl u = some qi →
        getKey queues qi.baseUrl = some e →
        annotateTab queues id (some u) = ⟨id, some u, some e.videos, true⟩) ∧
    ((annotateTab queues id (some u)).hasRestoredQueue = true →
        getKey queues (sessionKey id) = none) := by
  refine ⟨?_, ?_, ?_⟩
  · intro e he
    simp [annotateTab, hw, he]
  · intro qi e hn hqi hc
    simp [annotateTab, hw, hn, hqi, extract_baseUrl_isEmpty u qi hqi, hc]
  · intro hflag
    rcases hsk : getKey queues (sessionKey id) with _ | e
    · rfl
    · rw [show annotateTab queues id (some u) = ⟨id, some u, some e.videos, false⟩
        from by simp [annotateTab, hw, hsk]] at hflag
      exact absurd hflag (by simp)

/-- Witness for C2: a session-keyed record takes precedence and the
restored flag stays unset. -/
theorem claim_C2_witness :
    annotateTab
      [(sessionKey 4,
        QueueEntry.session
          (YouTubeQueueData.mk 4 "https://www.youtube.com/watch?v=X&list=Y"
            (youtubeBaseUrl "X" "Y") "X" "Y" [YouTubeVideo.mk "X" "t" "u"]))]
      4 (some "https://www.youtube.com/watch?v=X&list=Y")
      = ⟨4, some "https://www.youtube.com/watch?v=X&list=Y",
          some [YouTubeVideo.mk "X" "t" "u"], false⟩ :=
  (claim_C2_lookup_precedence
    [(sessionKey 4,
      QueueEntry.session
        (YouTubeQueueData.mk 4 "https://www.youtube.com/watch?v=X&list=Y"
          (youtubeBaseUrl "X" "Y") "X" "Y" [YouTubeVideo.mk "X" "t" "u"]))]
    4 "https://www.youtube.com/watch?v=X&list=Y" (by decide)).1
    (QueueEntry.session
      (YouTubeQueueData.mk 4 "https://www.youtube.com/watch?v=X&list=Y"
        (youtubeBaseUrl "X" "Y") "X" "Y" [YouTubeVideo.mk "X" "t" "u"]))
    (by decide)

/-- C3: Migration on tab close. When the tab-removed handler finds a
session-keyed queue record whose base URL is a canonical watch URL, the
resulting cache stores the record's items under the canonical key with
the fresh timestamp (overwriting any older canonical record), no longer
contains the session key, and a later, unrelated tab whose URL
canonicalizes to the same base URL then obtains the same item list with
the restored flag set. -/
theorem claim_C3_migration_on_close (m : QueueMap) (tid now : Nat)
    (qd : YouTubeQueueData) (v l : String)
    (hs : getKey m (sessionKey tid) = some (.session qd))
    (hb : qd.baseUrl = youtubeBaseUrl v l) :
    getKey (migrateQueueOnRemoved m tid now) qd.baseUrl
        = some (.canonical qd.videos now) ∧
    getKey (migrateQueueOnRemoved m tid now) (sessionKey tid) = none ∧
    (∀ id₂ u₂ qi, getKey (migrateQueueOnRemoved m tid now) (sessionKey id₂) = none →
        extractYouTubeQueueFromUrl u₂ = some qi → qi.baseUrl = qd.baseUrl →
        annotateTab (migrateQueueOnRemoved m tid now) id₂ (some u₂)
          = ⟨id₂, some u₂, some qd.videos, true⟩) := by
  have hbe : qd.baseUrl.isEmpty = false := by
    rw [hb]
    exact youtubeBaseUrl_isEmpty v l
  have hbk : qd.baseUrl ≠ sessionKey tid := by
    rw [hb]
    exact youtubeBaseUrl_ne_sessionKey v l tid
  have hm : migrateQueueOnRemoved m tid now
      = delKey (setKey m qd.baseUrl (.canonical qd.videos now)) (sessionKey tid) := by
    unfold migrateQueueOnRemoved
    rw [hs]
    simp [QueueEntry.baseUrlField, QueueEntry.videos, hbe]
  have hget : getKey (migrateQueueOnRemoved m tid now) qd.baseUrl
      = some (.canonical qd.videos now) := by
    rw [hm, getKey_delKey_ne _ _ _ (fun h => hbk h.symm)]
    exact getKey_setKey_self _ _ _
  refine ⟨hget, ?_, ?_⟩
  · rw [hm]
    exact getKey_delKey_self _ _
  · intro id₂ u₂ qi hn₂ hqi hqb
    have hw₂ := extract_isWatch u₂ qi hqi
    have hqe := extract_baseUrl_isEmpty u₂ qi hqi
    simp [annotateTab, hw₂, hn₂, hqi, hqe, hqb, hbe, hget, QueueEntry.videos]

/-- Witness for C3 on the spec's Scenario D: the session-keyed record of
closed tab 5 is folded into the canonical key, overwriting an older
canonical record. -/
theorem claim_C3_witness :
    getKey (migrateQueueOnRemoved
      [(sessionKey 5,
        QueueEntry.session (YouTubeQueueData.mk 5
          "https://www.youtube.com/watch?v=X&list=Y&index=3"
          (youtubeBaseUrl "X" "Y") "X" "Y" [YouTubeVideo.mk "X" "t" "u"])),
       (youtubeBaseUrl "X" "Y", QueueEntry.canonical [] 1)] 5 42)
      (youtubeBaseUrl "X" "Y")
      = some (QueueEntry.canonical [YouTubeVideo.mk "X" "t" "u"] 42) :=
  (claim_C3_migration_on_close
    [(sessionKey 5,
      QueueEntry.session (YouTubeQueueData.mk 5
        "https://www.youtube.com/watch?v=X&list=Y&index=3"
        (youtubeBaseUrl "X" "Y") "X" "Y" [YouTubeVideo.mk "X" "t" "u"])),
     (youtubeBaseUrl "X" "Y", QueueEntry.canonical [] 1)] 5 42
    (YouTubeQueueData.mk 5 "https://www.youtube.com/watch?v=X&list=Y&index=3"
      (youtubeBaseUrl "X" "Y") "X" "Y" [YouTubeVideo.mk "X" "t" "u"])
    "X" "Y" (by decide) rfl).1

/-- C4: Capture ordering. In the effect trace of a window deactivation,
every window-destroy action is strictly preceded by a durable persist of
the snapshot store whose length is exactly one more than the store's
length before the capture; a window is never destroyed without the
acknowledged persisted write. (Snapshot Capture is modelled from the
spec, see `deactivateWindow`.) -/
theorem claim_C4_capture_ordering (store : List WindowSnapshot) (wid : Nat)
    (liveTabs : List (Nat × String × String)) (parents : RelMap) (now : Nat) :
    ∀ j w, (deactivateWindow store wid liveTabs parents now).2.2.get? j
        = some (.destroyWindow w) →
      ∃ i s, i < j ∧
        (deactivateWindow store wid liveTabs parents now).2.2.get? i
          = some (.persistStore s) ∧ s.length = store.length + 1 := by
  intro j w h
  unfold deactivateWindow at h ⊢
  by_cases he : liveTabs.isEmpty
  · simp [he] at h
  · rw [if_neg he] at h ⊢
    match j with
    | 0 => exact absurd h (by simp)
    | 1 =>
      exact ⟨0, captureSnapshot liveTabs parents now :: store, by norm_num, rfl,
        by simp⟩
    | n + 2 => exact absurd h (by simp)

/-- Witness for C4: deactivating a one-tab window over an empty store
persists a one-snapshot store strictly before the destroy action. -/
theorem claim_C4_witness :
    ∃ i s, i < 1 ∧
      (deactivateWindow [] 3 [((1 : Nat), "u", "t")] [] 5).2.2.get? i
        = some (CaptureAction.persistStore s) ∧
      s.length = ([] : List WindowSnapshot).length + 1 :=
  claim_C4_capture_ordering [] 3 [((1 : Nat), "u", "t")] [] 5 1 3 (by decide)

/-- C5: Idempotent forget. The tab-removed relationship cleanup is a
no-op with no storage write for an identity with no stored edge, and
applying it twice yields the same persisted map as applying it once. -/
theorem claim_C5_idempotent_forget (m : RelMap) (tid : Nat) :
    (getKey m tid = none → cleanupRelationship m tid = (m, false)) ∧
    (cleanupRelationship (cleanupRelationship m tid).1 tid).1
      = (cleanupRelationship m tid).1 := by
  constructor
  · intro h
    unfold cleanupRelationship
    rw [h]
  · rcases hg : getKey m tid with _ | r
    · unfold cleanupRelationship
      rw [hg]
      simp [hg]
    · have h1 : (cleanupRelationship m tid).1 = delKey m tid := by
        unfold cleanupRelationship
        rw [hg]
      rw [h1]
      unfold cleanupRelationship
      rw [getKey_delKey_self]

/-- Witness for C5: cleaning up identity 7, which has no edge in the
map, leaves the map unchanged and issues no write. -/
theorem claim_C5_witness :
    cleanupRelationship [((3 : Nat), RelRecord.mk 1 0)] 7
      = ([((3 : Nat), RelRecord.mk 1 0)], false) :=
  (claim_C5_idempotent_forget [((3 : Nat), RelRecord.mk 1 0)] 7).1 (by decide)

/-- C6: recordChild overwrite and at-most-one-parent. A tab-created
event with a truthy opener maps the child to exactly
`{parentTabId := opener, createdAt := now}` (replacing any prior entry
and touching no other child), an event without a truthy opener stores
nothing, and key uniqueness of the persisted map is preserved, so every
child has at most one parent. -/
theorem claim_C6_recordChild_overwrite (m : RelMap) (tid : Nat)
    (op : Option Nat) (now : Nat) :
    (∀ p, op = some p → hasOpener op = true →
        getKey (recordChildOnCreated m tid op now) tid
          = some (RelRecord.mk p now)) ∧
    (hasOpener op = false → recordChildOnCreated m tid op now = m) ∧
    (∀ k, k ≠ tid →
        getKey (recordChildOnCreated m tid op now) k = getKey m k) ∧
    ((m.map Prod.fst).Nodup →
        ((recordChildOnCreated m tid op now).map Prod.fst).Nodup) := by
  refine ⟨?_, ?_, ?_, ?_⟩
  · rintro p rfl hop
    have hp : p ≠ 0 := by simpa [hasOpener] using hop
    simp only [recordChildOnCreated, if_pos hp]
    exact getKey_setKey_self _ _ _
  · intro hop
    rcases op with _ | p
    · rfl
    · have hp : p = 0 := by simpa [hasOpener] using hop
      simp [recordChildOnCreated, hp]
  · intro k hk
    rcases op with _ | p
    · rfl
    · by_cases hp : p = 0
      · simp [recordChildOnCreated, hp]
      · simp only [recordChildOnCreated, if_pos hp]
        exact getKey_setKey_ne _ _ _ _ (fun h => hk h.symm)
  · intro hnd
    rcases op with _ | p
    · exact hnd
    · by_cases hp : p = 0
      · simpa [recordChildOnCreated, hp] using hnd
      · simp only [recordChildOnCreated, if_pos hp]
        exact nodup_keys_setKey _ _ _ hnd

/-- Witness for C6: a created tab with opener 4 overwrites the child's
prior parent entry. -/
theorem claim_C6_witness :
    getKey (recordChildOnCreated [((2 : Nat), RelRecord.mk 9 0)] 2 (some 4) 10) 2
      = some (RelRecord.mk 4 10) :=
  (claim_C6_recordChild_overwrite [((2 : Nat), RelRecord.mk 9 0)] 2 (some 4) 10).1
    4 rfl (by decide)

/-- C7: Empty or failed extraction is benign. The tab-updated queue
capture leaves the persisted queue cache unchanged when extraction fails
(`none`, the source's swallowed-and-logged outcome) or yields an empty
item list, and writes the two keyed copies exactly when the extracted
list is non-empty; the handler is total, surfacing no error. -/
theorem claim_C7_benign_empty_extraction (m : QueueMap) (tid : Nat)
    (queueData : Option YouTubeQueueData) (now : Nat) :
    (queueData = none → onUpdatedQueueHandler m tid queueData now = m) ∧
    (∀ qd, queueData = some qd → qd.videos = [] →
        onUpdatedQueueHandler m tid queueData now = m) ∧
    (∀ qd, queueData = some qd → qd.videos ≠ [] →
        onUpdatedQueueHandler m tid queueData now
          = setKey (setKey m (sessionKey tid) (.session qd)) qd.baseUrl
              (.canonical qd.videos now)) := by
  refine ⟨?_, ?_, ?_⟩
  · rintro rfl
    rfl
  · rintro qd rfl hv
    simp [onUpdatedQueueHandler, hv]
  · rintro qd rfl hv
    have : 0 < qd.videos.length := List.length_pos.2 hv
    simp [onUpdatedQueueHandler, this]

/-- Witness for C7: a failed extraction leaves a one-record cache
untouched. -/
theorem claim_C7_witness :
    onUpdatedQueueHandler [(youtubeBaseUrl "X" "Y", QueueEntry.canonical [] 1)]
      5 none 42 = [(youtubeBaseUrl "X" "Y", QueueEntry.canonical [] 1)] :=
  (claim_C7_benign_empty_extraction
    [(youtubeBaseUrl "X" "Y", QueueEntry.canonical [] 1)] 5 none 42).1 rfl

/-- C9: restoreQueue response contract. The `restoreYouTubeQueue` handler
answers `{success := false, error := "Invalid parameters"}` when `tabId`
or `url` is missing (falsy), reports a failed tab update as
`{success := false, error := e}`, and answers `{success := true}` when
the update succeeds; being a total function of its inputs, it reports
every failure through the response and never by a thrown error. -/
theorem claim_C9_restore_response_contract (tabId : Option Nat)
    (url : Option String) (outcome : Option String) :
    ((jsTruthyNat tabId = false ∨ jsTruthyStr url = false) →
        restoreYouTubeQueueHandler tabId url outcome
          = ⟨false, some "Invalid parameters"⟩) ∧
    (jsTruthyNat tabId = true → jsTruthyStr url = true →
        (∀ e, outcome = some e →
            restoreYouTubeQueueHandler tabId url outcome = ⟨false, some e⟩) ∧
        (outcome = none →
            restoreYouTubeQueueHandler tabId url outcome = ⟨true, none⟩)) := by
  constructor
  · intro h
    unfold restoreYouTubeQueueHandler
    rcases h with h | h <;> simp [h]
  · intro ht hu
    constructor
    · rintro e rfl
      simp [restoreYouTubeQueueHandler, ht, hu]
    · rintro rfl
      simp [restoreYouTubeQueueHandler, ht, hu]

/-- Witness for C9: a request with a missing URL is answered through the
response object. -/
theorem claim_C9_witness :
    restoreYouTubeQueueHandler (some 5) none none
      = ⟨false, some "Invalid parameters"⟩ :=
  (claim_C9_restore_response_contract (some 5) none none).1 (Or.inr rfl)

/-- C10: Bounded tab history. Every tab-activated event either leaves
the persisted history unchanged (host error, missing tab, or URL not
starting with `http`) or prepends one entry and truncates so that the
result never exceeds 100 entries with the newest entry first; the
100-entry bound is preserved by every event. -/
theorem claim_C10_bounded_tab_history (hist : List TabHistoryEntry)
    (lastError : Bool) (tab : Option ActivatedTab) (now : Nat) :
    (lastError = true → onActivatedHistory hist lastError tab now = hist) ∧
    (tab = none → onActivatedHistory hist lastError tab now = hist) ∧
    (∀ t, tab = some t → t.url = none →
        onActivatedHistory hist lastError tab now = hist) ∧
    (∀ t u, tab = some t → t.url = some u → strStartsWith u "http" = false →
        onActivatedHistory hist lastError tab now = hist) ∧
    (∀ t u, lastError = false → tab = some t → t.url = some u →
        strStartsWith u "http" = true →
        (onActivatedHistory hist lastError tab now).length ≤ 100 ∧
        (onActivatedHistory hist lastError tab now).head?
          = some ⟨t.id, t.windowId, u, t.title, now⟩) ∧
    (hist.length ≤ 100 →
        (onActivatedHistory hist lastError tab now).length ≤ 100) := by
  have h100 : (100 : Nat) = 99 + 1 := by norm_num
  refine ⟨?_, ?_, ?_, ?_, ?_, ?_⟩
  · rintro rfl
    rfl
  · rintro rfl
    simp [onActivatedHistory]
  · rintro t rfl hu
    simp [onActivatedHistory, hu]
  · rintro t u rfl hu hns
    simp [onActivatedHistory, hu, hns]
  · rintro t u rfl rfl hu hsw
    rw [show onActivatedHistory hist false (some t) now
        = (let h := TabHistoryEntry.mk t.id t.windowId u t.title now :: hist;
           if h.length > 100 then h.take 100 else h) from by
      simp [onActivatedHistory, hu, hsw]]
    by_cases hlen : (TabHistoryEntry.mk t.id t.windowId u t.title now :: hist).length > 100
    · rw [if_pos hlen]
      refine ⟨?_, ?_⟩
      · rw [List.length_take]
        exact min_le_left _ _
      · rw [h100, List.take_succ_cons]
        rfl
    · rw [if_neg hlen]
      exact ⟨by simp at hlen ⊢; omega, rfl⟩
  · intro hb
    rcases lastError with _ | _
    · rcases tab with _ | t
      · simpa [onActivatedHistory] using hb
      · rcases hu : t.url with _ | u
        · simpa [onActivatedHistory, hu] using hb
        · by_cases hsw : strStartsWith u "http"
          · by_cases hlen : 100 < hist.length + 1
            · have hr : onActivatedHistory hist false (some t) now
                  = (TabHistoryEntry.mk t.id t.windowId u t.title now :: hist).take 100 := by
                simp [onActivatedHistory, hu, hsw, hlen]
              rw [hr, List.length_take]
              exact min_le_left _ _
            · have hr : onActivatedHistory hist false (some t) now
                  = TabHistoryEntry.mk t.id t.windowId u t.title now :: hist := by
                simp [onActivatedHistory, hu, hsw, hlen]
              rw [hr]
              simp
              omega
          · simpa [onActivatedHistory, hu, hsw] using hb
    · simpa [onActivatedHistory] using hb

/-- Witness for C10: activating a tab with an `http` URL over a
two-entry history keeps the bound and puts the new entry first. -/
theorem claim_C10_witness :
    (onActivatedHistory
        [TabHistoryEntry.mk 1 1 "http://a" "a" 0,
         TabHistoryEntry.mk 2 1 "http://b" "b" 0]
        false (some (ActivatedTab.mk 9 2 (some "http://c") "c")) 7).length ≤ 100 ∧
    (onActivatedHistory
        [TabHistoryEntry.mk 1 1 "http://a" "a" 0,
         TabHistoryEntry.mk 2 1 "http://b" "b" 0]
        false (some (ActivatedTab.mk 9 2 (some "http://c") "c")) 7).head?
      = some (TabHistoryEntry.mk 9 2 "http://c" "c" 7) :=
  (claim_C10_bounded_tab_history
    [TabHistoryEntry.mk 1 1 "http://a" "a" 0,
     TabHistoryEntry.mk 2 1 "http://b" "b" 0]
    false (some (ActivatedTab.mk 9 2 (some "http://c") "c")) 7).2.2.2.2.1
    (ActivatedTab.mk 9 2 (some "http://c") "c") "http://c" rfl rfl rfl (by decide)

end TabTracker
